import Mathlib

/-!
Verification of the trihedral calibration-rig geometry scripts
(`D9_Trihedral_DesignB_6x5.py` and `DesignBglb.py`).

The Python sources are shallowly embedded below: lengths are rational
numbers (the scripts only ever form `+ - * / max min` of decimal
literals), Blender vectors become `Vec3`, axis-aligned solids become
`Box` (minimum corner plus extents, exactly the data
`add_box_from_corner` consumes), and dictionary-based configuration
becomes a total function from the fixed key set `DimField` to `ℚ`.
Host-delegated operations (the boolean mesh subtraction, the shader
node evaluation) are embedded by their documented pointwise semantics.
-/

namespace ObaiProject

/-! ## Basic numeric helpers (`MM_TO_M`, `mm`) -/

/-- `MM_TO_M = 0.001`, the module constant. -/
def MM_TO_M : ℚ := 1 / 1000

/-- `mm(x)`: convert millimeters to meters, as in the source helper. -/
def mm (x : ℚ) : ℚ := x * MM_TO_M

/-- Blender `mathutils.Vector` restricted to the 3 components the scripts use. -/
structure Vec3 where
  x : ℚ
  y : ℚ
  z : ℚ
deriving DecidableEq

instance : Add Vec3 := ⟨fun a b => ⟨a.x + b.x, a.y + b.y, a.z + b.z⟩⟩

instance : Inhabited Vec3 := ⟨⟨0, 0, 0⟩⟩

@[simp] theorem Vec3.add_def (a b : Vec3) :
    a + b = ⟨a.x + b.x, a.y + b.y, a.z + b.z⟩ := rfl

/-! ## Box/Volume Builder (`add_box_from_corner`) -/

/-- An axis-aligned solid given by its minimum corner and its extents:
exactly the `(corner_world, size_world)` data of `add_box_from_corner`. -/
structure Box where
  corner : Vec3
  size : Vec3
deriving DecidableEq

/-- `add_box_from_corner`: the constructed cube occupies
`[corner, corner + size]` (the script places a unit cube at
`corner + size/2` and scales by the half-extents). -/
def add_box_from_corner (corner size : Vec3) : Box := ⟨corner, size⟩

/-- Membership in the solid occupied by a `Box` (closed on all faces). -/
def inBox (b : Box) (p : Vec3) : Prop :=
  b.corner.x ≤ p.x ∧ p.x ≤ b.corner.x + b.size.x ∧
  b.corner.y ≤ p.y ∧ p.y ≤ b.corner.y + b.size.y ∧
  b.corner.z ≤ p.z ∧ p.z ≤ b.corner.z + b.size.z

/-! ## Panel Assembler (`add_floor`, `add_back_wall`, `add_right_wall`)

Each builder reads the module globals `PANEL_W`, `PANEL_H`,
`PANEL_THICK`, `CUTOUT_WIDTH`, `CUTOUT_DEPTH`, `OVERLAP`; those reads
become explicit parameters here. -/

/-- `add_floor`: returns the main floor slab together with the cutout box
that the script subtracts from it via the host boolean modifier.  The
assembled floor volume is the pointwise difference of the two. -/
def add_floor (PANEL_W PANEL_H PANEL_THICK CUTOUT_WIDTH CUTOUT_DEPTH OVERLAP : ℚ) :
    Box × Box :=
  let corner : Vec3 := ⟨0, 0, 0⟩
  let size : Vec3 := ⟨mm (PANEL_W + OVERLAP), mm (PANEL_H + OVERLAP), mm PANEL_THICK⟩
  let cutout_center_x := mm (PANEL_W / 2)
  let cutout_corner : Vec3 :=
    ⟨cutout_center_x - mm (CUTOUT_WIDTH / 2), -mm CUTOUT_DEPTH, -mm PANEL_THICK⟩
  let cutout_size : Vec3 :=
    ⟨mm CUTOUT_WIDTH, mm (CUTOUT_DEPTH * 2), mm (PANEL_THICK * 3)⟩
  (add_box_from_corner corner size, add_box_from_corner cutout_corner cutout_size)

/-- `add_back_wall`: inside face at `y = PANEL_H`, resting at
`z = max(0, PANEL_THICK - OVERLAP)`, extended by `OVERLAP` in `+X`, `+Y`, `+Z`. -/
def add_back_wall (PANEL_W PANEL_H PANEL_THICK OVERLAP : ℚ) : Box :=
  let wall_z := max 0 (PANEL_THICK - OVERLAP)
  add_box_from_corner ⟨0, mm PANEL_H, mm wall_z⟩
    ⟨mm (PANEL_W + OVERLAP), mm (PANEL_THICK + OVERLAP), mm (PANEL_H + OVERLAP)⟩

/-- `add_right_wall`: inside face at `x = PANEL_W`, resting at
`z = max(0, PANEL_THICK - OVERLAP)`, extended by `OVERLAP` in `+X`, `+Y`, `+Z`. -/
def add_right_wall (PANEL_W PANEL_H PANEL_THICK OVERLAP : ℚ) : Box :=
  let wall_z := max 0 (PANEL_THICK - OVERLAP)
  add_box_from_corner ⟨mm PANEL_W, 0, mm wall_z⟩
    ⟨mm (PANEL_THICK + OVERLAP), mm (PANEL_H + OVERLAP), mm (PANEL_H + OVERLAP)⟩

/-! ## Marker Placement Engine (`panel_point`, `corner_center`) -/

/-- `panel_point(panel_origin, normal_dir, u_mm, v_mm, face_offset_mm)`:
maps an in-plane point plus a face offset to world space.  The script
reads the global `PANEL_THICK`; it is an explicit first parameter here.
`normal_dir` is the literal character tag of the source (`'Z'`, `'Y'`,
anything else meaning `'X'`, exactly like the trailing `else`). -/
def panel_point (PANEL_THICK : ℚ) (panel_origin : Vec3) (normal_dir : Char)
    (u_mm v_mm face_offset_mm : ℚ) : Vec3 :=
  let u := mm u_mm
  let v := mm v_mm
  let off := mm face_offset_mm
  if normal_dir = 'Z' then
    panel_origin + ⟨u, v, mm PANEL_THICK + off⟩
  else if normal_dir = 'Y' then
    panel_origin + ⟨u, -off, v⟩
  else
    panel_origin + ⟨-off, u, v⟩

/-- `corner_center(width_mm, height_mm, corner_label)`: marker center for a
corner, reading the globals `MARGIN` and `MARKER_SIZE` (explicit
parameters here).  The unknown-label `ValueError` is embedded as `none`. -/
def corner_center (MARGIN MARKER_SIZE : ℚ) (width_mm height_mm : ℚ)
    (corner_label : String) : Option (ℚ × ℚ) :=
  let inset := MARGIN + MARKER_SIZE / 2
  let max_x := width_mm - inset
  let max_y := height_mm - inset
  if corner_label = "BL" then some (inset, inset)
  else if corner_label = "BR" then some (max_x, inset)
  else if corner_label = "TL" then some (inset, max_y)
  else if corner_label = "TR" then some (max_x, max_y)
  else none

/-! ## Active-Area Mapper (`make_checker_material` mask nodes)

`make_checker_material` wires four Blender math nodes
(`GREATER_THAN`, `LESS_THAN`, three `MULTIPLY`) into a UV mask and a
`MixRGB` node in `MIX` mode.  Those node semantics are embedded
pointwise: a comparison node emits `1.0`/`0.0`, and
`MIX(fac, c1, c2) = (1-fac)*c1 + fac*c2` per channel. -/

/-- Blender math node `GREATER_THAN`: `1` if the first input is strictly
greater than the second, else `0`. -/
def greater_than (a b : ℚ) : ℚ := if b < a then 1 else 0

/-- Blender math node `LESS_THAN`: `1` if the first input is strictly less
than the second, else `0`. -/
def less_than (a b : ℚ) : ℚ := if a < b then 1 else 0

/-- The mask network of `make_checker_material` evaluated at a UV sample:
`(u_greater * u_less) * (v_greater * v_less)` with thresholds
`margin/panel_w`, `1 - margin/panel_w`, `margin/panel_h`, `1 - margin/panel_h`. -/
def mask_value (panel_w_mm panel_h_mm MARGIN u v : ℚ) : ℚ :=
  greater_than u (MARGIN / panel_w_mm) * less_than u (1 - MARGIN / panel_w_mm) *
    (greater_than v (MARGIN / panel_h_mm) * less_than v (1 - MARGIN / panel_h_mm))

/-- Blender `MixRGB` node in `MIX` mode, per channel:
`Color1` is the flat margin color, `Color2` the checker color, and the
factor input is driven by the mask. -/
def mix_rgb (fac c1 c2 : ℚ) : ℚ := (1 - fac) * c1 + fac * c2

/-- The mask network collapses to an indicator of the open active-area
rectangle. -/
theorem mask_value_eq_ite (panel_w_mm panel_h_mm MARGIN u v : ℚ) :
    mask_value panel_w_mm panel_h_mm MARGIN u v =
      if MARGIN / panel_w_mm < u ∧ u < 1 - MARGIN / panel_w_mm ∧
          MARGIN / panel_h_mm < v ∧ v < 1 - MARGIN / panel_h_mm
        then 1 else 0 := by
  unfold mask_value greater_than less_than
  by_cases h1 : MARGIN / panel_w_mm < u <;>
    by_cases h2 : u < 1 - MARGIN / panel_w_mm <;>
      by_cases h3 : MARGIN / panel_h_mm < v <;>
        by_cases h4 : v < 1 - MARGIN / panel_h_mm <;>
          simp [h1, h2, h3, h4]

/-! ## Claim theorems for the geometry components -/

/-- C1: for every panel width `W`, height `H` and corner label in
`{BL, BR, TL, TR}`, with `marker_size > 0` and
`margin + marker_size/2 ≤ min(W,H)/2`, `corner_center` returns the point
given by `inset = margin + marker_size/2` with `BL=(inset,inset)`,
`BR=(W-inset,inset)`, `TL=(inset,H-inset)`, `TR=(W-inset,H-inset)`, and
each returned point lies within `[margin, W-margin] × [margin, H-margin]`;
in particular `W=84, H=70, margin=12, marker_size=10.5` gives inset `17.25`
and the four listed points. -/
theorem C1_corner_center (W H margin ms : ℚ) (hms : 0 < ms)
    (hfit : margin + ms / 2 ≤ min W H / 2) :
    corner_center margin ms W H "BL" = some (margin + ms / 2, margin + ms / 2) ∧
    corner_center margin ms W H "BR" = some (W - (margin + ms / 2), margin + ms / 2) ∧
    corner_center margin ms W H "TL" = some (margin + ms / 2, H - (margin + ms / 2)) ∧
    corner_center margin ms W H "TR" = some (W - (margin + ms / 2), H - (margin + ms / 2)) ∧
    (∀ (lab : String) (p : ℚ × ℚ), corner_center margin ms W H lab = some p →
      margin ≤ p.1 ∧ p.1 ≤ W - margin ∧ margin ≤ p.2 ∧ p.2 ≤ H - margin) ∧
    corner_center 12 10.5 84 70 "BL" = some (17.25, 17.25) ∧
    corner_center 12 10.5 84 70 "BR" = some (66.75, 17.25) ∧
    corner_center 12 10.5 84 70 "TL" = some (17.25, 52.75) ∧
    corner_center 12 10.5 84 70 "TR" = some (66.75, 52.75) := by
  have hW : min W H ≤ W := min_le_left W H
  have hH : min W H ≤ H := min_le_right W H
  refine ⟨?_, ?_, ?_, ?_, ?_, ?_, ?_, ?_, ?_⟩
  · unfold corner_center
    rw [if_pos rfl]
  · unfold corner_center
    rw [if_neg (by decide), if_pos rfl]
  · unfold corner_center
    rw [if_neg (by decide), if_neg (by decide), if_pos rfl]
  · unfold corner_center
    rw [if_neg (by decide), if_neg (by decide), if_neg (by decide), if_pos rfl]
  · intro lab p hp
    unfold corner_center at hp
    split_ifs at hp
    · obtain rfl : _ = p := Option.some.inj hp
      exact ⟨by linarith, by linarith, by linarith, by linarith⟩
    · obtain rfl : _ = p := Option.some.inj hp
      exact ⟨by linarith, by linarith, by linarith, by linarith⟩
    · obtain rfl : _ = p := Option.some.inj hp
      exact ⟨by linarith, by linarith, by linarith, by linarith⟩
    · obtain rfl : _ = p := Option.some.inj hp
      exact ⟨by linarith, by linarith, by linarith, by linarith⟩
  · unfold corner_center
    rw [if_pos rfl]
    norm_num
  · unfold corner_center
    rw [if_neg (by decide), if_pos rfl]
    norm_num
  · unfold corner_center
    rw [if_neg (by decide), if_neg (by decide), if_pos rfl]
    norm_num
  · unfold corner_center
    rw [if_neg (by decide), if_neg (by decide), if_neg (by decide), if_pos rfl]
    norm_num

/-- C1 witness at the concrete configuration of the claim. -/
theorem C1_corner_center_witness :
    (0 : ℚ) < 10.5 ∧ (12 : ℚ) + 10.5 / 2 ≤ min 84 70 / 2 ∧
    corner_center 12 10.5 84 70 "BL" = some (12 + 10.5 / 2, 12 + 10.5 / 2) := by
  refine ⟨by norm_num, by norm_num, ?_⟩
  exact (C1_corner_center 84 70 12 10.5 (by norm_num) (by norm_num)).1

/-- C2: for every panel origin, in-plane coordinates `(u, v)` and face
offset `d ≥ 0`, `panel_point` maps the panel-local point to world space by
exactly one fixed rule per orientation: `+Z` (floor) face gives
`origin + (u, v, thick + d)`, `-Y` (back wall) face gives
`origin + (u, -d, v)`, `-X` (right wall) face gives `origin + (-d, u, v)`
(all lengths scaled by `mm`). -/
theorem C2_panel_point (thick : ℚ) (origin : Vec3) (u v d : ℚ) (hd : 0 ≤ d) :
    panel_point thick origin 'Z' u v d = origin + ⟨mm u, mm v, mm thick + mm d⟩ ∧
    panel_point thick origin 'Y' u v d = origin + ⟨mm u, -mm d, mm v⟩ ∧
    panel_point thick origin 'X' u v d = origin + ⟨-mm d, mm u, mm v⟩ := by
  refine ⟨?_, ?_, ?_⟩
  · unfold panel_point
    rw [if_pos rfl]
  · unfold panel_point
    rw [if_neg (by decide), if_pos rfl]
  · unfold panel_point
    rw [if_neg (by decide), if_neg (by decide)]

/-- C2 witness at the default floor configuration. -/
theorem C2_panel_point_witness :
    (0 : ℚ) ≤ 0 ∧
    panel_point 0.8 ⟨0, 0, 0⟩ 'Z' 17.25 17.25 0 =
      (⟨0, 0, 0⟩ : Vec3) + ⟨mm 17.25, mm 17.25, mm 0.8 + mm 0⟩ :=
  ⟨le_refl 0, (C2_panel_point 0.8 ⟨0, 0, 0⟩ 17.25 17.25 0 (le_refl 0)).1⟩

/-- C3: for every panel `(panel_w, panel_h)` with `margin > 0`, the
active-area mask at a normalized UV sample `(u, v)` is true exactly when
`margin/panel_w < u < 1 - margin/panel_w` and
`margin/panel_h < v < 1 - margin/panel_h` (strict on both axes), the
checker color is selected where the mask is true and the flat margin
color where it is false; for `panel_w = 108, margin = 12` the bounds are
`12/108 = 1/9` and `8/9`, the sample `(0.05, 0.5)` has mask false and
`(0.5, 0.5)` has mask true. -/
theorem C3_active_area_mask (panel_w panel_h margin : ℚ) (hm : 0 < margin)
    (hw : 0 < panel_w) (hh : 0 < panel_h) (u v : ℚ) :
    (mask_value panel_w panel_h margin u v = 1 ↔
      (margin / panel_w < u ∧ u < 1 - margin / panel_w ∧
        margin / panel_h < v ∧ v < 1 - margin / panel_h)) ∧
    (mask_value panel_w panel_h margin u v = 0 ∨
      mask_value panel_w panel_h margin u v = 1) ∧
    (∀ cMargin cChecker : ℚ,
      mix_rgb (mask_value panel_w panel_h margin u v) cMargin cChecker =
        if margin / panel_w < u ∧ u < 1 - margin / panel_w ∧
            margin / panel_h < v ∧ v < 1 - margin / panel_h
          then cChecker else cMargin) ∧
    mask_value 108 94 12 0.05 0.5 = 0 ∧
    mask_value 108 94 12 0.5 0.5 = 1 ∧
    (12 : ℚ) / 108 = 1 / 9 ∧ 1 - (12 : ℚ) / 108 = 8 / 9 := by
  refine ⟨?_, ?_, ?_, ?_, ?_, by norm_num, by norm_num⟩
  · rw [mask_value_eq_ite]
    split_ifs with hc
    · simp [hc]
    · simp [hc]
  · rw [mask_value_eq_ite]
    split_ifs
    · exact Or.inr rfl
    · exact Or.inl rfl
  · intro cMargin cChecker
    rw [mask_value_eq_ite]
    unfold mix_rgb
    split_ifs <;> ring
  · rw [mask_value_eq_ite]
    have hcond : ¬((12 : ℚ) / 108 < 0.05 ∧ (0.05 : ℚ) < 1 - 12 / 108 ∧
        (12 : ℚ) / 94 < 0.5 ∧ (0.5 : ℚ) < 1 - 12 / 94) := by
      rintro ⟨hbad, -⟩
      norm_num at hbad
    rw [if_neg hcond]
  · rw [mask_value_eq_ite]
    rw [if_pos (by norm_num)]

/-- C3 witness at the configuration named by the claim. -/
theorem C3_active_area_mask_witness :
    (0 : ℚ) < 12 ∧ (0 : ℚ) < 108 ∧ (0 : ℚ) < 94 ∧
    (mask_value 108 94 12 0.5 0.5 = 0 ∨ mask_value 108 94 12 0.5 0.5 = 1) :=
  ⟨by norm_num, by norm_num, by norm_num,
    (C3_active_area_mask 108 94 12 (by norm_num) (by norm_num) (by norm_num)
      0.5 0.5).2.1⟩

/-- C4: for every configuration with `0 ≤ overlap < panel_thick`, the
overlap never moves an inside-face coordinate: the back wall's minimum-Y
face lies exactly at `y = panel_h`, the right wall's minimum-X face lies
exactly at `x = panel_w`, and the floor's maximum-Z face lies exactly at
`z = panel_thick` (each in `mm`), for all values of `overlap`. -/
theorem C4_inside_faces (pw ph thick ov cw cd : ℚ)
    (h0 : 0 ≤ ov) (h1 : ov < thick) :
    (add_back_wall pw ph thick ov).corner.y = mm ph ∧
    (add_right_wall pw ph thick ov).corner.x = mm pw ∧
    (add_floor pw ph thick cw cd ov).1.corner.z +
        (add_floor pw ph thick cw cd ov).1.size.z = mm thick := by
  refine ⟨rfl, rfl, ?_⟩
  show (0 : ℚ) + mm thick = mm thick
  rw [zero_add]

/-- C4 witness at the default configuration. -/
theorem C4_inside_faces_witness :
    (0 : ℚ) ≤ 0.1 ∧ (0.1 : ℚ) < 0.8 ∧
    (add_back_wall 108 94 0.8 0.1).corner.y = mm 94 :=
  ⟨by norm_num, by norm_num,
    (C4_inside_faces 108 94 0.8 0.1 20 10 (by norm_num) (by norm_num)).1⟩

/-- C5: for every configuration with `panel_w, panel_thick, cutout_width,
cutout_depth > 0`, the cutout volume subtracted from the floor is an
axis-aligned box centered laterally at `x = panel_w/2`, spanning
`cutout_width` in X, covering `y ∈ [-cutout_depth, cutout_depth]` (so it
extends exactly `cutout_depth` inward from the `y = 0` edge), and
spanning `z ∈ [-panel_thick, 2·panel_thick]`, which strictly contains the
floor thickness interval `[0, panel_thick]` with margin beyond both faces. -/
theorem C5_floor_cutout (pw ph thick cw cd ov : ℚ)
    (hpw : 0 < pw) (hth : 0 < thick) (hcw : 0 < cw) (hcd : 0 < cd) :
    (add_floor pw ph thick cw cd ov).2.corner.x +
        (add_floor pw ph thick cw cd ov).2.size.x / 2 = mm (pw / 2) ∧
    (add_floor pw ph thick cw cd ov).2.size.x = mm cw ∧
    (add_floor pw ph thick cw cd ov).2.corner.y = -mm cd ∧
    (add_floor pw ph thick cw cd ov).2.corner.y +
        (add_floor pw ph thick cw cd ov).2.size.y = mm cd ∧
    (add_floor pw ph thick cw cd ov).2.corner.z = -mm thick ∧
    (add_floor pw ph thick cw cd ov).2.corner.z +
        (add_floor pw ph thick cw cd ov).2.size.z = mm (2 * thick) ∧
    (add_floor pw ph thick cw cd ov).2.corner.z < 0 ∧
    mm thick < (add_floor pw ph thick cw cd ov).2.corner.z +
        (add_floor pw ph thick cw cd ov).2.size.z := by
  have hmono : ∀ a b : ℚ, a < b → mm a < mm b := by
    intro a b hab
    unfold mm MM_TO_M
    have : (0 : ℚ) < 1 / 1000 := by norm_num
    exact (mul_lt_mul_right this).mpr hab
  have hz : mm 0 = 0 := by
    unfold mm
    ring
  refine ⟨?_, rfl, rfl, ?_, rfl, ?_, ?_, ?_⟩
  · show mm (pw / 2) - mm (cw / 2) + mm cw / 2 = mm (pw / 2)
    unfold mm
    ring
  · show -mm cd + mm (cd * 2) = mm cd
    unfold mm
    ring
  · show -mm thick + mm (thick * 3) = mm (2 * thick)
    unfold mm
    ring
  · show -mm thick < 0
    have := hmono 0 thick hth
    rw [hz] at this
    linarith
  · show mm thick < -mm thick + mm (thick * 3)
    unfold mm MM_TO_M
    nlinarith
/-- C5 witness at the default configuration. -/
theorem C5_floor_cutout_witness :
    (0 : ℚ) < 108 ∧ (0 : ℚ) < 0.8 ∧ (0 : ℚ) < 20 ∧ (0 : ℚ) < 10 ∧
    (add_floor 108 94 0.8 20 10 0.1).2.size.x = mm 20 :=
  ⟨by norm_num, by norm_num, by norm_num, by norm_num,
    (C5_floor_cutout 108 94 0.8 20 10 0.1 (by norm_num) (by norm_num)
      (by norm_num) (by norm_num)).2.1⟩

/-- C10: for every configuration with `panel_thick > 0` and `overlap ≥ 0`,
the back wall and right wall volumes each have minimum z-coordinate
`max(0, panel_thick - overlap)` (in `mm`); consequently no assembled
panel volume (either wall, or the floor slab minus its cutout) ever
extends below the `z = 0` plane, even when `overlap` exceeds `panel_thick`. -/
theorem C10_wall_min_z (pw ph thick ov cw cd : ℚ)
    (hth : 0 < thick) (hov : 0 ≤ ov) :
    (add_back_wall pw ph thick ov).corner.z = mm (max 0 (thick - ov)) ∧
    (add_right_wall pw ph thick ov).corner.z = mm (max 0 (thick - ov)) ∧
    (∀ p : Vec3, inBox (add_back_wall pw ph thick ov) p → 0 ≤ p.z) ∧
    (∀ p : Vec3, inBox (add_right_wall pw ph thick ov) p → 0 ≤ p.z) ∧
    (∀ p : Vec3, inBox (add_floor pw ph thick cw cd ov).1 p →
      ¬ inBox (add_floor pw ph thick cw cd ov).2 p → 0 ≤ p.z) := by
  have hnn : 0 ≤ mm (max 0 (thick - ov)) := by
    unfold mm MM_TO_M
    have h1 : (0 : ℚ) ≤ max 0 (thick - ov) := le_max_left 0 (thick - ov)
    have h2 : (0 : ℚ) ≤ 1 / 1000 := by norm_num
    exact mul_nonneg h1 h2
  refine ⟨rfl, rfl, ?_, ?_, ?_⟩
  · intro p hp
    have hz : mm (max 0 (thick - ov)) ≤ p.z := hp.2.2.2.2.1
    linarith
  · intro p hp
    have hz : mm (max 0 (thick - ov)) ≤ p.z := hp.2.2.2.2.1
    linarith
  · intro p hp _
    have hz : (0 : ℚ) ≤ p.z := hp.2.2.2.2.1
    exact hz

/-- C10 witness at the default configuration. -/
theorem C10_wall_min_z_witness :
    (0 : ℚ) < 0.8 ∧ (0 : ℚ) ≤ 0.1 ∧
    (add_back_wall 108 94 0.8 0.1).corner.z = mm (max 0 (0.8 - 0.1)) :=
  ⟨by norm_num, by norm_num,
    (C10_wall_min_z 108 94 0.8 0.1 20 10 (by norm_num) (by norm_num)).1⟩

/-! ## Mesh Classifier (`DesignBglb.py`)

A loose mesh part is abstracted by its world axis-aligned bounding box
(`get_world_bbox` returns exactly the min and max corner used by every
classifier function). -/

/-- A coordinate axis tag, as returned by `guess_panel_normal_axis`. -/
inductive Axis
  | X
  | Y
  | Z
deriving DecidableEq

/-- A mesh part, abstracted by its world bounding box `(mn, mx)`. -/
structure Part where
  mn : Vec3
  mx : Vec3
deriving DecidableEq

instance : Inhabited Part := ⟨⟨⟨0, 0, 0⟩, ⟨0, 0, 0⟩⟩⟩

/-- The bounding-box extents `ext = mx - mn` of a part. -/
def extents (p : Part) : Vec3 :=
  ⟨p.mx.x - p.mn.x, p.mx.y - p.mn.y, p.mx.z - p.mn.z⟩

/-- `guess_panel_normal_axis`: the axis of smallest bounding-box extent.
The source stable-sorts `[(X, ext.x), (Y, ext.y), (Z, ext.z)]` ascending
by extent and returns the head, so ties are broken in the fixed order
X, then Y, then Z; the nested conditional below is that stable sort of a
three-element list evaluated symbolically. -/
def guess_panel_normal_axis (p : Part) : Axis :=
  let e := extents p
  if e.x ≤ e.y ∧ e.x ≤ e.z then Axis.X
  else if e.y ≤ e.z then Axis.Y
  else Axis.Z

/-- `bbox_volume`: product of the bounding-box extents. -/
def bbox_volume (p : Part) : ℚ :=
  (extents p).x * (extents p).y * (extents p).z

/-- Insertion step of Python's stable `sorted(key=bbox_volume, reverse=True)`.
`sortVolDesc` below processes the input back to front, so the inserted
element is earlier in the input than everything already inserted; it is
placed in front of the first element whose volume is `≤` its own.  Thus
it passes only strictly larger volumes and stops at (hence ahead of) any
equal-volume element, so equal-volume elements keep their original
relative order, exactly as Python's stable sort guarantees. -/
def insertVolDesc (p : Part) : List Part → List Part
  | [] => [p]
  | q :: qs =>
    if bbox_volume q ≤ bbox_volume p then p :: q :: qs
    else q :: insertVolDesc p qs

/-- `sorted(parts, key=bbox_volume, reverse=True)`: stable descending sort
(the output is non-increasing in volume and equal-volume parts keep their
input order, which determines the result uniquely — the same output
Python's stable sort produces). -/
def sortVolDesc : List Part → List Part
  | [] => []
  | p :: ps => insertVolDesc p (sortVolDesc ps)

/-- Stability on ties: two equal-volume parts come out in input order. -/
theorem sortVolDesc_tie_pair (A B : Part)
    (h : bbox_volume A = bbox_volume B) :
    sortVolDesc [A, B] = [A, B] := by
  show insertVolDesc A (insertVolDesc B []) = [A, B]
  show insertVolDesc A [B] = [A, B]
  unfold insertVolDesc
  rw [if_pos (le_of_eq h.symm)]

/-- The Boolean test `guess_panel_normal_axis(p) == 'Z'`. -/
def isZpart (p : Part) : Bool :=
  decide (guess_panel_normal_axis p = Axis.Z)

/-- The scan loop of `pick_floor_and_walls`: walks the candidate list,
takes the first Z-normal part as floor, and appends every other part (in
order) to the wall list.  Returns the loop's final `(floor, walls)` state. -/
def pickScan : List Part → Option Part × List Part
  | [] => (none, [])
  | p :: ps =>
    if isZpart p then (some p, ps)
    else
      let r := pickScan ps
      (r.1, p :: r.2)

/-- `pick_floor_and_walls(panels)`: loop above, then the fallback
`floor = panels[0]; walls = panels[1:]` when no Z-normal part was found.
`none` embeds the `IndexError` the fallback would raise on an empty list. -/
def pick_floor_and_walls (panels : List Part) : Option (Part × List Part) :=
  match pickScan panels with
  | (some f, ws) => some (f, ws)
  | (none, _) =>
    match panels with
    | [] => none
    | p :: rest => some (p, rest)

/-- The candidate selection of `main`: rank all parts by bounding-box
volume descending (stable) and keep the top three (`parts_sorted[:3]`). -/
def panelCandidates (parts : List Part) : List Part :=
  (sortVolDesc parts).take 3

/-- The full classifier path of `main`: candidate selection followed by
`pick_floor_and_walls`. -/
def classify_parts (parts : List Part) : Option (Part × List Part) :=
  pick_floor_and_walls (panelCandidates parts)

/-- The scan loop finds the first Z-normal part and removes exactly that
occurrence from the wall list. -/
theorem pickScan_eq (l : List Part) :
    pickScan l =
      match l.find? isZpart with
      | some f => (some f, l.eraseP isZpart)
      | none => (none, l) := by
  induction l with
  | nil => rfl
  | cons p ps ih =>
    by_cases hp : isZpart p
    · simp [pickScan, hp, List.find?_cons_of_pos, List.eraseP_cons_of_pos]
    · rw [show pickScan (p :: ps) = ((pickScan ps).1, p :: (pickScan ps).2) by
        simp [pickScan, hp]]
      rw [List.find?_cons_of_neg _ (by simp [hp]), List.eraseP_cons_of_neg (by simp [hp])]
      rw [ih]
      cases hf : ps.find? isZpart <;> simp

/-- `sortVolDesc` never produces an empty list from a non-empty one. -/
theorem sortVolDesc_ne_nil (p : Part) (ps : List Part) :
    sortVolDesc (p :: ps) ≠ [] := by
  show insertVolDesc p (sortVolDesc ps) ≠ []
  cases sortVolDesc ps with
  | nil => simp [insertVolDesc]
  | cons q qs =>
    unfold insertVolDesc
    split_ifs <;> simp

/-- C6: for every non-empty list of mesh parts, the classifier ranks all
parts by bounding-box volume descending, takes the top three as panel
candidates, makes the floor the first candidate in ranking order whose
normal axis (smallest bounding-box extent, ties broken X, Y, Z) is `Z`
with all remaining candidates becoming walls, and when no candidate has
a Z normal axis makes the single largest-volume candidate the floor with
the rest as walls — raising no error in that fallback. -/
theorem C6_mesh_classifier (parts : List Part) (h : parts ≠ []) :
    (classify_parts parts).isSome = true ∧
    (∀ f, (panelCandidates parts).find? isZpart = some f →
      classify_parts parts = some (f, (panelCandidates parts).eraseP isZpart)) ∧
    ((panelCandidates parts).find? isZpart = none →
      classify_parts parts =
        some ((panelCandidates parts).headI, (panelCandidates parts).tail)) := by
  obtain ⟨p, ps, rfl⟩ : ∃ p ps, parts = p :: ps := by
    cases parts with
    | nil => exact absurd rfl h
    | cons p ps => exact ⟨p, ps, rfl⟩
  have hne : panelCandidates (p :: ps) ≠ [] := by
    unfold panelCandidates
    cases hs : sortVolDesc (p :: ps) with
    | nil => exact absurd hs (sortVolDesc_ne_nil p ps)
    | cons q qs => simp
  obtain ⟨c, cs, hc⟩ : ∃ c cs, panelCandidates (p :: ps) = c :: cs := by
    cases hcand : panelCandidates (p :: ps) with
    | nil => exact absurd hcand hne
    | cons c cs => exact ⟨c, cs, rfl⟩
  have hmain : ∀ f, (panelCandidates (p :: ps)).find? isZpart = some f →
      classify_parts (p :: ps) =
        some (f, (panelCandidates (p :: ps)).eraseP isZpart) := by
    intro f hf
    unfold classify_parts pick_floor_and_walls
    rw [pickScan_eq, hf]
  have hfall : (panelCandidates (p :: ps)).find? isZpart = none →
      classify_parts (p :: ps) =
        some ((panelCandidates (p :: ps)).headI, (panelCandidates (p :: ps)).tail) := by
    intro hf
    unfold classify_parts pick_floor_and_walls
    rw [pickScan_eq, hf, hc]
    simp [hc]
  refine ⟨?_, hmain, hfall⟩
  cases hf : (panelCandidates (p :: ps)).find? isZpart with
  | some f => rw [hmain f hf]; rfl
  | none => rw [hfall hf]; rfl

/-- The spec test vector: three boxes of volumes 100, 80, 60 with normal
axes Z, X, Y respectively. -/
def partVol100Z : Part := ⟨⟨0, 0, 0⟩, ⟨10, 10, 1⟩⟩

/-- Volume-80 box whose smallest extent is along X. -/
def partVol80X : Part := ⟨⟨0, 0, 0⟩, ⟨1, 8, 10⟩⟩

/-- Volume-60 box whose smallest extent is along Y. -/
def partVol60Y : Part := ⟨⟨0, 0, 0⟩, ⟨10, 1, 6⟩⟩

/-- C6 witness on the spec's test vector: the Z-normal largest box is the
floor and the other two candidates are the walls. -/
theorem C6_mesh_classifier_witness :
    ([partVol100Z, partVol80X, partVol60Y] : List Part) ≠ [] ∧
    classify_parts [partVol100Z, partVol80X, partVol60Y] =
      some (partVol100Z,
        (panelCandidates [partVol100Z, partVol80X, partVol60Y]).eraseP isZpart) := by
  have hsort : sortVolDesc [partVol100Z, partVol80X, partVol60Y] =
      [partVol100Z, partVol80X, partVol60Y] := by
    norm_num [sortVolDesc, insertVolDesc, bbox_volume, extents,
      partVol100Z, partVol80X, partVol60Y]
  have hcand : panelCandidates [partVol100Z, partVol80X, partVol60Y] =
      [partVol100Z, partVol80X, partVol60Y] := by
    rw [panelCandidates, hsort]
    rfl
  have hz : isZpart partVol100Z = true := by
    simp only [isZpart, decide_eq_true_eq]
    norm_num [guess_panel_normal_axis, extents, partVol100Z]
  have hfind : (panelCandidates [partVol100Z, partVol80X, partVol60Y]).find? isZpart =
      some partVol100Z := by
    rw [hcand, List.find?_cons_of_pos _ hz]
  exact ⟨by simp,
    (C6_mesh_classifier [partVol100Z, partVol80X, partVol60Y] (by simp)).2.1
      partVol100Z hfind⟩

/-! ## Dimension Resolver (`parse_dimensions_file`, `load_dimensions`)

Python strings are embedded as `List Char` and the dimensions dictionary
as a total function `DimField → ℚ`.  The two integer-typed keys
(`CHECKER_COLS`, `CHECKER_ROWS`) always hold integral values: their
defaults are integers and every override for them is coerced through
`int(float(value))`, embedded as truncation toward zero; the
`isinstance(default_value, int)` dispatch therefore depends only on the
key and becomes `intTyped`. -/

/-- A Python string, as a list of characters. -/
abbrev PyStr := List Char

/-- Python `str.strip()`: drop whitespace from both ends. -/
def pyStrip (s : PyStr) : PyStr :=
  ((s.dropWhile Char.isWhitespace).reverse.dropWhile Char.isWhitespace).reverse

/-- Python `str.upper()` on the ASCII keys the file uses. -/
def pyUpper (s : PyStr) : PyStr := s.map Char.toUpper

/-- Python `line.startswith("#")`. -/
def startsWithHash : PyStr → Bool
  | [] => false
  | c :: _ => c = '#'

/-- Python `line.split(sep, 1)` when `sep` occurs in `line`: the part
before the first occurrence and the part after it. -/
def splitFirst (sep : Char) : PyStr → PyStr × PyStr
  | [] => ([], [])
  | c :: cs =>
    if c = sep then ([], cs)
    else
      let r := splitFirst sep cs
      (c :: r.1, r.2)

/-- Leading-sign handling of Python numeric conversion. -/
def splitSign : PyStr → Bool × PyStr
  | '-' :: rest => (true, rest)
  | '+' :: rest => (false, rest)
  | s => (false, s)

/-- Decimal digits to a natural number. -/
def digitsToNat (l : List Char) : ℕ :=
  l.foldl (fun acc c => 10 * acc + (c.toNat - '0'.toNat)) 0

/-- Unsigned decimal mantissa `digits[.digits]` of Python `float(...)`,
requiring at least one digit. -/
def mantissaOfStr (s : PyStr) : Option ℚ :=
  let ip := s.takeWhile Char.isDigit
  let rest := s.dropWhile Char.isDigit
  match rest with
  | [] => if ip = [] then none else some (digitsToNat ip : ℚ)
  | '.' :: rest2 =>
    if rest2.all Char.isDigit then
      if ip = [] ∧ rest2 = [] then none
      else some ((digitsToNat ip : ℚ) + (digitsToNat rest2 : ℚ) / (10 : ℚ) ^ rest2.length)
    else none
  | _ => none

/-- Split a numeric literal at the first exponent marker `e`/`E`. -/
def splitAtExp : PyStr → PyStr × Option PyStr
  | [] => ([], none)
  | c :: cs =>
    if c = 'e' ∨ c = 'E' then ([], some cs)
    else
      let r := splitAtExp cs
      (c :: r.1, r.2)

/-- Python `float(value)` on an already-stripped string: optional sign,
decimal mantissa, optional decimal exponent; `none` embeds `ValueError`. -/
def floatOfStr (s : PyStr) : Option ℚ :=
  let sgn := splitSign s
  let parts := splitAtExp sgn.2
  match mantissaOfStr parts.1 with
  | none => none
  | some m =>
    let sm := if sgn.1 then -m else m
    match parts.2 with
    | none => some sm
    | some es =>
      let esgn := splitSign es
      if esgn.2 ≠ [] ∧ esgn.2.all Char.isDigit then
        some (if esgn.1 then sm / (10 : ℚ) ^ digitsToNat esgn.2
              else sm * (10 : ℚ) ^ digitsToNat esgn.2)
      else none

/-- Python `int(q)` for a float `q`: truncation toward zero. -/
def pytrunc (q : ℚ) : ℤ := if 0 ≤ q then ⌊q⌋ else ⌈q⌉

/-- The fixed key set of the `defaults` dictionary in `load_dimensions`. -/
inductive DimField
  | PANEL_W
  | PANEL_H
  | PANEL_THICK
  | CHECKER_COLS
  | CHECKER_ROWS
  | SQUARE_SIZE
  | MARGIN
  | MARKER_SIZE
  | EPS
  | CUTOUT_WIDTH
  | CUTOUT_DEPTH
  | OVERLAP
deriving DecidableEq

/-- The dimensions dictionary: a value for every key. -/
abbrev Dims := DimField → ℚ

/-- Key lookup: `key in defaults` for the normalized key. -/
def fieldOfKey (k : PyStr) : Option DimField :=
  if k = "PANEL_W".data then some DimField.PANEL_W
  else if k = "PANEL_H".data then some DimField.PANEL_H
  else if k = "PANEL_THICK".data then some DimField.PANEL_THICK
  else if k = "CHECKER_COLS".data then some DimField.CHECKER_COLS
  else if k = "CHECKER_ROWS".data then some DimField.CHECKER_ROWS
  else if k = "SQUARE_SIZE".data then some DimField.SQUARE_SIZE
  else if k = "MARGIN".data then some DimField.MARGIN
  else if k = "MARKER_SIZE".data then some DimField.MARKER_SIZE
  else if k = "EPS".data then some DimField.EPS
  else if k = "CUTOUT_WIDTH".data then some DimField.CUTOUT_WIDTH
  else if k = "CUTOUT_DEPTH".data then some DimField.CUTOUT_DEPTH
  else if k = "OVERLAP".data then some DimField.OVERLAP
  else none

/-- Whether a key is integer-typed (`isinstance(default_value, int)`),
which is invariant across runs: `CHECKER_COLS` and `CHECKER_ROWS`. -/
def intTyped : DimField → Bool
  | DimField.CHECKER_COLS => true
  | DimField.CHECKER_ROWS => true
  | _ => false

/-- Separator choice of the parser loop: split at the first `=` when one
is present, otherwise at the first `:` when one is present, otherwise skip. -/
def selectSeparator (line : PyStr) : Option (PyStr × PyStr) :=
  if '=' ∈ line then some (splitFirst '=' line)
  else if ':' ∈ line then some (splitFirst ':' line)
  else none

/-- Outcome of one iteration of the parser loop. -/
inductive LineResult
  | update (f : DimField) (q : ℚ)
  | skipWarn (key value : PyStr)
  | skipSilent
deriving DecidableEq

/-- One iteration of the `for raw in handle` loop of
`parse_dimensions_file`: strip, skip blanks and comments, split at the
chosen separator, normalize the key, keep known keys, coerce the value
(`int(float(v))` for integer-typed keys, `float(v)` otherwise), and warn
(without updating) when coercion fails. -/
def lineResult (raw : PyStr) : LineResult :=
  let line := pyStrip raw
  if line = [] then LineResult.skipSilent
  else if startsWithHash line then LineResult.skipSilent
  else
    match selectSeparator line with
    | none => LineResult.skipSilent
    | some kv =>
      let key := pyUpper (pyStrip kv.1)
      let value := pyStrip kv.2
      match fieldOfKey key with
      | none => LineResult.skipSilent
      | some f =>
        match floatOfStr value with
        | none => LineResult.skipWarn key value
        | some q =>
          LineResult.update f (if intTyped f then (pytrunc q : ℚ) else q)

/-- The loop body acting on the `(updates-so-far, warnings)` state.
Building the `updates` dict and merging it once at the end is equivalent
to applying each update as it is found, since later duplicate keys
overwrite earlier ones in both formulations. -/
def applyLineW (st : Dims × List (PyStr × PyStr)) (l : PyStr) :
    Dims × List (PyStr × PyStr) :=
  match lineResult l with
  | LineResult.update f q => (Function.update st.1 f q, st.2)
  | LineResult.skipWarn k v => (st.1, st.2 ++ [(k, v)])
  | LineResult.skipSilent => st

/-- The configuration component of the loop body. -/
def stepConf (c : Dims) (l : PyStr) : Dims :=
  match lineResult l with
  | LineResult.update f q => Function.update c f q
  | _ => c

/-- `parse_dimensions_file(path, defaults)`: `none` is a missing file
(defaults returned unchanged); otherwise the merged dictionary after the
line loop. -/
def parse_dimensions_file (src : Option (List PyStr)) (defaults : Dims) : Dims :=
  match src with
  | none => defaults
  | some lines => (lines.foldl applyLineW (defaults, [])).1

/-- The derivation step of `load_dimensions`: compute the active area
from the merged checker geometry, then replace a non-positive `PANEL_W`
or `PANEL_H` by `active + 2 * MARGIN`.  (The keys are always present, so
the `not in merged` disjunct of the source is always false.) -/
def deriveDims (merged : Dims) : Dims :=
  let active_w := merged DimField.CHECKER_COLS * merged DimField.SQUARE_SIZE
  let active_h := merged DimField.CHECKER_ROWS * merged DimField.SQUARE_SIZE
  let m1 :=
    if merged DimField.PANEL_W ≤ 0 then
      Function.update merged DimField.PANEL_W (active_w + 2 * merged DimField.MARGIN)
    else merged
  if m1 DimField.PANEL_H ≤ 0 then
    Function.update m1 DimField.PANEL_H (active_h + 2 * merged DimField.MARGIN)
  else m1

/-- `load_dimensions()`, parametrized by the module-constant defaults it
reads and the override source: parse, then derive. -/
def load_dimensions (defaults : Dims) (src : Option (List PyStr)) : Dims :=
  deriveDims (parse_dimensions_file src defaults)

/-- The module-constant defaults (`PANEL_W = 108.0`, ..., `OVERLAP = 0.1`),
written as exact rationals. -/
def defaultDims : Dims := fun f =>
  match f with
  | DimField.PANEL_W => 108
  | DimField.PANEL_H => 94
  | DimField.PANEL_THICK => 4 / 5
  | DimField.CHECKER_COLS => 6
  | DimField.CHECKER_ROWS => 5
  | DimField.SQUARE_SIZE => 14
  | DimField.MARGIN => 12
  | DimField.MARKER_SIZE => 21 / 2
  | DimField.EPS => 1 / 20
  | DimField.CUTOUT_WIDTH => 20
  | DimField.CUTOUT_DEPTH => 10
  | DimField.OVERLAP => 1 / 10

/-! ## Resolver lemmas -/

/-- The configuration component of one loop step. -/
theorem applyLineW_fst (st : Dims × List (PyStr × PyStr)) (l : PyStr) :
    (applyLineW st l).1 = stepConf st.1 l := by
  unfold applyLineW stepConf
  cases lineResult l <;> rfl

/-- The configuration component of the whole loop. -/
theorem foldl_applyLineW_fst (ls : List PyStr) :
    ∀ st : Dims × List (PyStr × PyStr),
      (ls.foldl applyLineW st).1 = ls.foldl stepConf st.1 := by
  induction ls with
  | nil => intro st; rfl
  | cons l ls ih =>
    intro st
    rw [List.foldl_cons, List.foldl_cons, ih, applyLineW_fst]

/-- Each line's update is determined by the line alone: running the loop
from two different dictionaries either sets a key to the same value in
both runs or leaves it untouched in both. -/
theorem foldl_stepConf_cases (ls : List PyStr) :
    ∀ (c d : Dims) (f : DimField),
      ls.foldl stepConf c f = ls.foldl stepConf d f ∨
      (ls.foldl stepConf c f = c f ∧ ls.foldl stepConf d f = d f) := by
  induction ls with
  | nil => intro c d f; exact Or.inr ⟨rfl, rfl⟩
  | cons l ls ih =>
    intro c d f
    rw [List.foldl_cons, List.foldl_cons]
    rcases ih (stepConf c l) (stepConf d l) f with h | ⟨h1, h2⟩
    · exact Or.inl h
    · rw [h1, h2]
      unfold stepConf
      cases hr : lineResult l with
      | update g q =>
        dsimp only
        by_cases hf : f = g
        · subst hf
          rw [Function.update_same, Function.update_same]
          exact Or.inl rfl
        · rw [Function.update_noteq hf, Function.update_noteq hf]
          exact Or.inr ⟨rfl, rfl⟩
      | skipWarn k v => exact Or.inr ⟨rfl, rfl⟩
      | skipSilent => exact Or.inr ⟨rfl, rfl⟩

/-- `foldl_stepConf_cases`, lifted to `parse_dimensions_file`. -/
theorem parse_cases (src : Option (List PyStr)) (c d : Dims) (f : DimField) :
    parse_dimensions_file src c f = parse_dimensions_file src d f ∨
    (parse_dimensions_file src c f = c f ∧ parse_dimensions_file src d f = d f) := by
  cases src with
  | none => exact Or.inr ⟨rfl, rfl⟩
  | some lines =>
    unfold parse_dimensions_file
    dsimp only
    rw [foldl_applyLineW_fst, foldl_applyLineW_fst]
    exact foldl_stepConf_cases lines c d f

/-- The derivation step only ever touches `PANEL_W` and `PANEL_H`. -/
theorem deriveDims_apply_ne (m : Dims) (f : DimField)
    (h1 : f ≠ DimField.PANEL_W) (h2 : f ≠ DimField.PANEL_H) :
    deriveDims m f = m f := by
  unfold deriveDims
  split_ifs <;>
    simp only [Function.update_noteq h1, Function.update_noteq h2]

/-- The derivation step at `PANEL_W`. -/
theorem deriveDims_PW (m : Dims) :
    deriveDims m DimField.PANEL_W =
      if m DimField.PANEL_W ≤ 0 then
        m DimField.CHECKER_COLS * m DimField.SQUARE_SIZE + 2 * m DimField.MARGIN
      else m DimField.PANEL_W := by
  unfold deriveDims
  split_ifs <;> simp_all [Function.update]

/-- The derivation step at `PANEL_H` (the `PANEL_W` update changes
neither the `PANEL_H` entry nor the precomputed active height). -/
theorem deriveDims_PH (m : Dims) :
    deriveDims m DimField.PANEL_H =
      if m DimField.PANEL_H ≤ 0 then
        m DimField.CHECKER_ROWS * m DimField.SQUARE_SIZE + 2 * m DimField.MARGIN
      else m DimField.PANEL_H := by
  unfold deriveDims
  split_ifs <;> simp_all [Function.update]

/-- C8: the Dimension Resolver is idempotent — for every defaults
dictionary and every override source (including a missing one), running
the resolver a second time with its own merged output as the defaults
and the same override source yields an identical parameter set. -/
theorem C8_resolver_idempotent (defaults : Dims) (src : Option (List PyStr)) :
    load_dimensions (load_dimensions defaults src) src =
      load_dimensions defaults src := by
  funext f
  show deriveDims (parse_dimensions_file src
      (deriveDims (parse_dimensions_file src defaults))) f =
    deriveDims (parse_dimensions_file src defaults) f
  set A := parse_dimensions_file src defaults with hA
  set M := deriveDims A with hM
  set B := parse_dimensions_file src M with hB
  have key : ∀ g, B g = A g ∨ B g = M g := by
    intro g
    rcases parse_cases src M defaults g with h | ⟨h1, _⟩
    · exact Or.inl h
    · exact Or.inr h1
  have hnp : ∀ g, g ≠ DimField.PANEL_W → g ≠ DimField.PANEL_H → B g = A g := by
    intro g h1 h2
    rcases key g with h | h
    · exact h
    · rw [h, hM, deriveDims_apply_ne A g h1 h2]
  by_cases hfW : f = DimField.PANEL_W
  · subst hfW
    have hc : B DimField.CHECKER_COLS = A DimField.CHECKER_COLS :=
      hnp _ (by decide) (by decide)
    have hs : B DimField.SQUARE_SIZE = A DimField.SQUARE_SIZE :=
      hnp _ (by decide) (by decide)
    have hm : B DimField.MARGIN = A DimField.MARGIN :=
      hnp _ (by decide) (by decide)
    rw [deriveDims_PW, hc, hs, hm]
    have hMPW : M DimField.PANEL_W =
        if A DimField.PANEL_W ≤ 0 then
          A DimField.CHECKER_COLS * A DimField.SQUARE_SIZE + 2 * A DimField.MARGIN
        else A DimField.PANEL_W := by
      rw [hM, deriveDims_PW]
    rcases key DimField.PANEL_W with hBW | hBW
    · rw [hBW, hMPW]
    · rw [hBW, hMPW]
      by_cases hP : A DimField.PANEL_W ≤ 0
      · rw [if_pos hP, ite_self]
      · rw [if_neg hP, if_neg hP]
  · by_cases hfH : f = DimField.PANEL_H
    · subst hfH
      have hc : B DimField.CHECKER_ROWS = A DimField.CHECKER_ROWS :=
        hnp _ (by decide) (by decide)
      have hs : B DimField.SQUARE_SIZE = A DimField.SQUARE_SIZE :=
        hnp _ (by decide) (by decide)
      have hm : B DimField.MARGIN = A DimField.MARGIN :=
        hnp _ (by decide) (by decide)
      rw [deriveDims_PH, hc, hs, hm]
      have hMPH : M DimField.PANEL_H =
          if A DimField.PANEL_H ≤ 0 then
            A DimField.CHECKER_ROWS * A DimField.SQUARE_SIZE + 2 * A DimField.MARGIN
          else A DimField.PANEL_H := by
        rw [hM, deriveDims_PH]
      rcases key DimField.PANEL_H with hBH | hBH
      · rw [hBH, hMPH]
      · rw [hBH, hMPH]
        by_cases hP : A DimField.PANEL_H ≤ 0
        · rw [if_pos hP, ite_self]
        · rw [if_neg hP, if_neg hP]
    · rw [deriveDims_apply_ne B f hfW hfH, hnp f hfW hfH, hM,
        deriveDims_apply_ne A f hfW hfH]

/-! ## Separator precedence (C9) -/

/-- Stripping never introduces characters. -/
theorem mem_pyStrip {x : Char} {s : PyStr} (h : x ∈ pyStrip s) : x ∈ s := by
  unfold pyStrip at h
  rw [List.mem_reverse] at h
  have h2 := (List.dropWhile_sublist (l := (s.dropWhile Char.isWhitespace).reverse)
    (p := Char.isWhitespace)).subset h
  rw [List.mem_reverse] at h2
  exact (List.dropWhile_sublist (l := s) (p := Char.isWhitespace)).subset h2

/-- `split(sep, 1)` cuts at the first occurrence of the separator. -/
theorem splitFirst_append (sep : Char) (a b : PyStr) (h : sep ∉ a) :
    splitFirst sep (a ++ sep :: b) = (a, b) := by
  induction a with
  | nil => simp [splitFirst]
  | cons c cs ih =>
    have hc : ¬c = sep := fun hcs => h (hcs ▸ List.mem_cons_self c cs)
    have h2 : sep ∉ cs := fun hm => h (List.mem_cons_of_mem c hm)
    simp [splitFirst, hc, ih h2]

/-- C9: in the override parser, a line containing both `=` and `:` is
split at the first `=` (the `=` separator takes precedence, and only the
first occurrence splits key from value); `:` is used as the separator
only when the line contains no `=`; and a line containing neither
separator is skipped silently — the loop state (dictionary and warning
list) is returned unchanged. -/
theorem C9_separator_rules :
    (∀ a b : PyStr, '=' ∉ a → selectSeparator (a ++ '=' :: b) = some (a, b)) ∧
    (∀ a b : PyStr, '=' ∉ a → '=' ∉ b → ':' ∉ a →
      selectSeparator (a ++ ':' :: b) = some (a, b)) ∧
    (∀ (c : Dims) (ws : List (PyStr × PyStr)) (l : PyStr), '=' ∉ l → ':' ∉ l →
      applyLineW (c, ws) l = (c, ws)) := by
  refine ⟨?_, ?_, ?_⟩
  · intro a b h
    have hmem : '=' ∈ a ++ '=' :: b := List.mem_append_right a (List.mem_cons_self _ _)
    unfold selectSeparator
    rw [if_pos hmem, splitFirst_append _ _ _ h]
  · intro a b h1 h2 h3
    have hne : '=' ∉ a ++ ':' :: b := by
      intro hm
      rcases List.mem_append.mp hm with hm | hm
      · exact h1 hm
      · rcases List.mem_cons.mp hm with hm | hm
        · exact absurd hm (by decide)
        · exact h2 hm
    have hmem : ':' ∈ a ++ ':' :: b := List.mem_append_right a (List.mem_cons_self _ _)
    unfold selectSeparator
    rw [if_neg hne, if_pos hmem, splitFirst_append _ _ _ h3]
  · intro c ws l h1 h2
    have hsel : selectSeparator (pyStrip l) = none := by
      unfold selectSeparator
      rw [if_neg (fun hm => h1 (mem_pyStrip hm)),
        if_neg (fun hm => h2 (mem_pyStrip hm))]
    have hres : lineResult l = LineResult.skipSilent := by
      unfold lineResult
      by_cases hb : pyStrip l = []
      · rw [if_pos hb]
      · rw [if_neg hb]
        by_cases hh : startsWithHash (pyStrip l) = true
        · rw [if_pos hh]
        · rw [if_neg hh, hsel]
    unfold applyLineW
    rw [hres]

/-- C9 witness: a line with both separators splits at the first `=` even
when the value still contains `=` and `:`; a line with only `:` splits
there; a separator-free line leaves the loop state untouched. -/
theorem C9_separator_rules_witness :
    ('=' ∉ "MARGIN".data ∧ '=' ∉ "MARGIN".data ∧ ':' ∉ "MARGIN".data ∧
      '=' ∉ "7".data ∧ '=' ∉ "hello world".data ∧ ':' ∉ "hello world".data) ∧
    selectSeparator ("MARGIN".data ++ '=' :: "7:2=9".data) =
      some ("MARGIN".data, "7:2=9".data) ∧
    selectSeparator ("MARGIN".data ++ ':' :: "7".data) =
      some ("MARGIN".data, "7".data) ∧
    applyLineW (defaultDims, []) ("hello world".data) = (defaultDims, []) := by
  refine ⟨⟨by decide, by decide, by decide, by decide, by decide, by decide⟩, ?_, ?_, ?_⟩
  · exact C9_separator_rules.1 ("MARGIN".data) ("7:2=9".data) (by decide)
  · exact C9_separator_rules.2.1 ("MARGIN".data) ("7".data)
      (by decide) (by decide) (by decide)
  · exact C9_separator_rules.2.2 defaultDims [] ("hello world".data)
      (by decide) (by decide)

/-! ## Missing positivity validation (C7) -/

/-- An override document that sets `SQUARE_SIZE` to `-1`. -/
def badSrc : List PyStr := ["SQUARE_SIZE = -1".data]

/-- C7 counterexample: the claim says a resolved configuration with
`square_size ≤ 0` (or `cols ≤ 0` or `rows ≤ 0`) is rejected by
validation before any geometry is built.  It is not: the resolver
returns a complete merged parameter set carrying `SQUARE_SIZE = -1 ≤ 0`
(and the unchanged positive panel size), and the pipeline proceeds to
geometry building with it — there is no rejection path for these keys
anywhere in `parse_dimensions_file` or `load_dimensions`. -/
theorem C7_counterexample :
    load_dimensions defaultDims (some badSrc) DimField.SQUARE_SIZE = -1 ∧
    load_dimensions defaultDims (some badSrc) DimField.SQUARE_SIZE ≤ 0 ∧
    load_dimensions defaultDims (some badSrc) DimField.PANEL_W = 108 ∧
    load_dimensions defaultDims (some badSrc) DimField.CHECKER_COLS = 6 := by
  have h1 : load_dimensions defaultDims (some badSrc) DimField.SQUARE_SIZE = -1 := rfl
  refine ⟨h1, ?_, rfl, rfl⟩
  rw [h1]
  norm_num

/-- C7 amended: the resolver performs no positivity validation on
`SQUARE_SIZE`, `CHECKER_COLS` or `CHECKER_ROWS` — whenever the merged
override document leaves any of them non-positive, `load_dimensions`
returns them exactly as merged (only `PANEL_W`/`PANEL_H` are ever
rewritten, and only when themselves non-positive). -/
theorem C7_no_positivity_validation (d : Dims) (src : Option (List PyStr))
    (h : parse_dimensions_file src d DimField.SQUARE_SIZE ≤ 0 ∨
      parse_dimensions_file src d DimField.CHECKER_COLS ≤ 0 ∨
      parse_dimensions_file src d DimField.CHECKER_ROWS ≤ 0) :
    load_dimensions d src DimField.SQUARE_SIZE =
      parse_dimensions_file src d DimField.SQUARE_SIZE ∧
    load_dimensions d src DimField.CHECKER_COLS =
      parse_dimensions_file src d DimField.CHECKER_COLS ∧
    load_dimensions d src DimField.CHECKER_ROWS =
      parse_dimensions_file src d DimField.CHECKER_ROWS :=
  ⟨deriveDims_apply_ne _ _ (by decide) (by decide),
    deriveDims_apply_ne _ _ (by decide) (by decide),
    deriveDims_apply_ne _ _ (by decide) (by decide)⟩

/-- C7 witness for the amended statement, at the counterexample input. -/
theorem C7_no_positivity_validation_witness :
    parse_dimensions_file (some badSrc) defaultDims DimField.SQUARE_SIZE ≤ 0 ∧
    load_dimensions defaultDims (some badSrc) DimField.SQUARE_SIZE =
      parse_dimensions_file (some badSrc) defaultDims DimField.SQUARE_SIZE := by
  have hp : parse_dimensions_file (some badSrc) defaultDims DimField.SQUARE_SIZE
      = -1 := rfl
  refine ⟨by rw [hp]; norm_num, ?_⟩
  exact (C7_no_positivity_validation defaultDims (some badSrc)
    (Or.inl (by rw [hp]; norm_num))).1

end ObaiProject
